import Mathlib

/-!
Verification of the EOP_Sockets frame-transport module (comm/socks.py).

Modelling conventions:
- A byte is a `Nat`; a file or network payload is a `List Nat` of its bytes in
  order.
- ASCII control messages are byte lists; `strNat` models the decimal rendering
  of a non-negative integer produced by the Python builtin `str`.
- Blocking socket reads are modelled by a delivery schedule `sched : Nat → Nat`
  giving the number of bytes the OS makes available to the i-th `recv` call of
  the loop; a blocking `recv` on a live connection with pending data returns at
  least one byte, which corresponds to the hypothesis `1 ≤ sched i`.
- IP addresses are abstract tokens (`Nat`), since the code treats them opaquely.
- Loops are written with explicit fuel so that every definition stays
  executable; the theorems identify the fuel that makes the loop run to its
  natural exit, and divergence claims are stated as `none`/unchanged-state
  results for every fuel.
-/

/-- Decimal digits of `n`, most significant first, with explicit fuel as the
first argument; `n` itself is always enough fuel. Returns `[]` for `0`. -/
def toDecimalAux : Nat → Nat → List Nat
  | 0, _ => []
  | fuel+1, n => if n = 0 then [] else toDecimalAux fuel (n / 10) ++ [n % 10]

/-- Model of the Python builtin `str` on a non-negative integer: the ASCII
bytes of its decimal rendering (48 is the code of the digit zero). -/
def strNat (n : Nat) : List Nat :=
  if n = 0 then [48] else (toDecimalAux n n).map (fun d => 48 + d)

/-- Model of one `filedesc.readline(1024)` call on a binary file: the returned
chunk is the bytes up to and including the first newline byte (10), capped at
the first argument (1024 at the call sites). -/
def readlineChunk : Nat → List Nat → List Nat
  | 0, _ => []
  | _+1, [] => []
  | l+1, b :: rest => if b = 10 then [b] else b :: readlineChunk l rest

/-- The part of the file left unread after one `readline` call with the given
cap. -/
def readlineRest : Nat → List Nat → List Nat
  | 0, s => s
  | _+1, [] => []
  | l+1, b :: rest => if b = 10 then rest else readlineRest l rest

/-- The chunk sequence produced by the streaming loop of `send_frame`
(`readline(1024)` repeated until it returns the empty chunk), with fuel;
`s.length` is always enough fuel since every chunk of a non-empty file is
non-empty. -/
def sendFrameBodyAux : Nat → List Nat → List (List Nat)
  | 0, _ => []
  | _+1, [] => []
  | fuel+1, b :: rest =>
    readlineChunk 1024 (b :: rest) :: sendFrameBodyAux fuel (readlineRest 1024 (b :: rest))

/-- The chunks sent by the body-streaming loop of `send_frame`, in order. -/
def sendFrameBody (s : List Nat) : List (List Nat) :=
  sendFrameBodyAux s.length s

/-- One observable action of `send_frame`: the initial pacing sleep, a `send`
of a byte chunk, or a read on the socket. The constructor `recvCall` exists so
that the absence of any socket read in the trace of `send_frame` is statable. -/
inductive SendEvent where
  | sleep (secs : Nat)
  | sendBytes (chunk : List Nat)
  | recvCall
deriving DecidableEq

/-- Trace of `send_frame(client_socket, frame_loc, sleep=1)`: sleep for the
given number of seconds, then send the file bytes chunk by chunk with repeated
`readline(1024)` calls until the file is exhausted. The function performs no
other socket operation. -/
def send_frame (frameBytes : List Nat) (sleepSecs : Nat) : List SendEvent :=
  SendEvent.sleep sleepSecs :: (sendFrameBody frameBytes).map SendEvent.sendBytes

/-- The chunks pushed onto the socket by a trace, in order. -/
def sentBytes (trace : List SendEvent) : List (List Nat) :=
  trace.filterMap fun e =>
    match e with
    | SendEvent.sendBytes c => some c
    | _ => none

/-- Model of `send_frame_size`: sends `str(os.path.getsize(frame_loc))` as an
ASCII control message; the size of the file is the length of its byte list. -/
def send_frame_size (frameBytes : List Nat) : List Nat :=
  strNat frameBytes.length

/-- State of the read loop of `receive_frame`: bytes written to the artifact so
far, the unread part of the incoming stream, the running byte count
(`img_size` in the source), and the number of `recv` calls made so far. -/
structure RecvState where
  written : List Nat
  stream : List Nat
  imgSize : Nat
  calls : Nat
deriving DecidableEq

/-- The byte count requested by one iteration of the read loop of
`receive_frame`: the remaining count when it is below 1024, otherwise 1024. -/
def receive_frame_req (frame_size imgSize : Nat) : Nat :=
  if frame_size - imgSize < 1024 then frame_size - imgSize else 1024

/-- One iteration of the read loop of `receive_frame`: request
`receive_frame_req` bytes, receive what the schedule delivers (never more than
requested, never more than the stream holds), append it to the artifact and
advance the byte count. -/
def receive_frame_step (sched : Nat → Nat) (frame_size : Nat) (s : RecvState) : RecvState :=
  { written := s.written ++ s.stream.take (min (receive_frame_req frame_size s.imgSize) (sched s.calls))
    stream := s.stream.drop (s.stream.take (min (receive_frame_req frame_size s.imgSize) (sched s.calls))).length
    imgSize := s.imgSize + (s.stream.take (min (receive_frame_req frame_size s.imgSize) (sched s.calls))).length
    calls := s.calls + 1 }

/-- The read loop of `receive_frame` (`while img_size < frame_size`), cut off
after `fuel` iterations. -/
def receive_frame_loop (sched : Nat → Nat) (frame_size : Nat) : Nat → RecvState → RecvState
  | 0, s => s
  | fuel+1, s =>
    if s.imgSize < frame_size then
      receive_frame_loop sched frame_size fuel (receive_frame_step sched frame_size s)
    else s

/-- Model of the read loop of `receive_frame(client_sock, frame, frame_size,
save_loc)` run from the initial state (empty artifact, zero count) on the given
incoming stream. -/
def receive_frame (sched : Nat → Nat) (frame_size : Nat) (stream : List Nat) (fuel : Nat) :
    RecvState :=
  receive_frame_loop sched frame_size fuel ⟨[], stream, 0, 0⟩

/-- The ASCII bytes of the literal text `OK FRAME ` (trailing space included). -/
def okFrameBytes : List Nat := [79, 75, 32, 70, 82, 65, 77, 69, 32]

/-- The exact message `waiting_for_ack` accepts for `frame`:
`'OK FRAME ' + str(frame)`. -/
def waiting_for_ack_target (frame : Nat) : List Nat := okFrameBytes ++ strNat frame

/-- The re-read loop of `waiting_for_ack`: `f i` is the i-th control message
delivered by the socket; the loop keeps reading while the message differs from
the target and reports the index of the accepted message. -/
def waiting_for_ack_loop (f : Nat → List Nat) (target : List Nat) : Nat → Nat → Option Nat
  | 0, _ => none
  | fuel+1, i => if f i = target then some i else waiting_for_ack_loop f target fuel (i+1)

/-- Model of `waiting_for_ack(client_socket, frame)`: read messages one at a
time, discard every message different from `'OK FRAME ' + str(frame)`, return
on the first exact match; cut off after `fuel` reads, `none` meaning the call
has not returned within that many reads. -/
def waiting_for_ack (fuel : Nat) (f : Nat → List Nat) (frame : Nat) : Option Nat :=
  waiting_for_ack_loop f (waiting_for_ack_target frame) fuel 0

/-- Model of `send_frame_ack(client_sock, frame)`: the ASCII bytes of
`'OK FRAME ' + str(frame)`. -/
def send_frame_ack (frame : Nat) : List Nat := okFrameBytes ++ strNat frame

/-- One observable socket operation of `init_server_socket`. The constructors
`listenOn` and `acceptConn` exist so that the absence of `listen` and `accept`
calls is statable. -/
inductive SockOp where
  | socketCreate
  | gethostbyname
  | bindTo (addr : Nat) (port : Nat)
  | listenOn (backlog : Nat)
  | acceptConn
deriving DecidableEq

/-- Trace of `init_server_socket(address=None, port=5000)`: create the socket,
resolve the local host name when no address is given (`hostAddr` stands for
the result of `socket.gethostbyname(socket.gethostname())`), and bind. -/
def init_server_socket (address : Option Nat) (hostAddr : Nat) (port : Nat) : List SockOp :=
  match address with
  | none => [SockOp.socketCreate, SockOp.gethostbyname, SockOp.bindTo hostAddr port]
  | some a => [SockOp.socketCreate, SockOp.bindTo a port]

/-- The single bounded read performed by `receive_bytes_to_string`: at most
1024 bytes from the front of the incoming stream. -/
def receive_bytes_read (stream : List Nat) : List Nat := stream.take 1024

/-- Model of `receive_bytes_to_string`: one `recv(1024)`, UTF-8 decode, and
removal of every newline. The control messages are ASCII, where UTF-8 decoding
is one byte per character, so the decoded text is modelled by the byte list
itself and the newline character is byte 10. -/
def receive_bytes_to_string (stream : List Nat) : List Nat :=
  (receive_bytes_read stream).filter (fun b => b != 10)

/-- The artifact name `receive_frame` creates before its loop:
`save_loc + "frame" + str(frame) + ".jpg"`, as ASCII bytes. -/
def receive_frame_filename (save_loc : List Nat) (frame : Nat) : List Nat :=
  save_loc ++ [102, 114, 97, 109, 101] ++ strNat frame ++ [46, 106, 112, 103]

/-- One observable step of the Receiver handling a frame: creating the output
artifact, the body the read loop wrote to it, and a control message sent back. -/
inductive RecvEvent where
  | createArtifact (filename : List Nat)
  | wroteBody (body : List Nat)
  | sendMsg (msg : List Nat)
deriving DecidableEq

/-- Modelled from the spec: the per-frame Receiver driver. The server main
program that strings the per-frame steps together is not part of the source
under verification; per the spec, the Receiver opens the output artifact at a
deterministic name, runs the read loop for the announced size, and then emits
the acknowledgment. The artifact name, the read loop and the acknowledgment
text themselves are the source functions modelled above. -/
def receiver_frame_driver (sched : Nat → Nat) (save_loc : List Nat) (frame announced : Nat)
    (stream : List Nat) (fuel : Nat) : List RecvEvent :=
  [RecvEvent.createArtifact (receive_frame_filename save_loc frame),
   RecvEvent.wroteBody (receive_frame sched announced stream fuel).written,
   RecvEvent.sendMsg (send_frame_ack frame)]

/-- A delivery schedule in which the OS always has a full buffer available. -/
def schedFull : Nat → Nat := fun _ => 1024

/-- A concrete control-message stream whose second message is the frame-0
acknowledgment and whose other messages are empty. -/
def ackStreamEx : Nat → List Nat := fun i => if i = 1 then waiting_for_ack_target 0 else []

theorem readlineChunk_append_rest : ∀ (l : Nat) (s : List Nat),
    readlineChunk l s ++ readlineRest l s = s
  | 0, _ => rfl
  | _+1, [] => rfl
  | l+1, b :: rest => by
    by_cases hb : b = 10
    · simp [readlineChunk, readlineRest, hb]
    · simp only [readlineChunk, readlineRest, if_neg hb, List.cons_append, List.cons.injEq,
        true_and]
      exact readlineChunk_append_rest l rest

theorem readlineChunk_ne_nil (l : Nat) (b : Nat) (rest : List Nat) :
    readlineChunk (l+1) (b :: rest) ≠ [] := by
  by_cases hb : b = 10 <;> simp [readlineChunk, hb]

theorem readlineRest_length_lt (b : Nat) (rest : List Nat) :
    (readlineRest 1024 (b :: rest)).length < (b :: rest).length := by
  have h1 := readlineChunk_append_rest 1024 (b :: rest)
  have h2 : readlineChunk 1024 (b :: rest) ≠ [] := readlineChunk_ne_nil 1023 b rest
  have h3 := congrArg List.length h1
  rw [List.length_append] at h3
  have h4 : 1 ≤ (readlineChunk 1024 (b :: rest)).length := by
    cases hc : readlineChunk 1024 (b :: rest) with
    | nil => exact absurd hc h2
    | cons x xs => simp
  omega

theorem sendFrameBodyAux_flatten : ∀ (fuel : Nat) (s : List Nat), s.length ≤ fuel →
    (sendFrameBodyAux fuel s).flatten = s
  | 0, s, h => by
    cases s with
    | nil => rfl
    | cons b rest => simp at h
  | _+1, [], _ => rfl
  | fuel+1, b :: rest, h => by
    have hlt := readlineRest_length_lt b rest
    have hle : (readlineRest 1024 (b :: rest)).length ≤ fuel := by
      simp only [List.length_cons] at h hlt
      omega
    simp only [sendFrameBodyAux, List.flatten_cons]
    rw [sendFrameBodyAux_flatten fuel _ hle]
    exact readlineChunk_append_rest 1024 (b :: rest)

theorem sendFrameBody_flatten (s : List Nat) : (sendFrameBody s).flatten = s :=
  sendFrameBodyAux_flatten s.length s (Nat.le_refl _)

theorem sentBytes_map_sendBytes (cs : List (List Nat)) :
    sentBytes (cs.map SendEvent.sendBytes) = cs := by
  induction cs with
  | nil => rfl
  | cons c cs ih => simpa [sentBytes, List.filterMap_cons] using ih

theorem sentBytes_send_frame (B : List Nat) (s : Nat) :
    sentBytes (send_frame B s) = sendFrameBody B := by
  have h := sentBytes_map_sendBytes (sendFrameBody B)
  simpa [send_frame, sentBytes, List.filterMap_cons] using h

theorem toDecimalAux_eq_digits_reverse : ∀ (fuel n : Nat), n ≤ fuel →
    toDecimalAux fuel n = (Nat.digits 10 n).reverse
  | 0, n, h => by
    have hn : n = 0 := by omega
    subst hn
    simp [toDecimalAux]
  | fuel+1, n, h => by
    by_cases hn : n = 0
    · subst hn
      simp [toDecimalAux]
    · have hdiv : n / 10 ≤ fuel := by
        have hd : n / 10 < n := Nat.div_lt_self (Nat.pos_of_ne_zero hn) (by omega)
        omega
      rw [Nat.digits_def' (by omega) (Nat.pos_of_ne_zero hn)]
      simp only [toDecimalAux, if_neg hn, List.reverse_cons]
      rw [toDecimalAux_eq_digits_reverse fuel (n / 10) hdiv]

theorem strNat_eq (n : Nat) :
    strNat n = if n = 0 then [48] else ((Nat.digits 10 n).reverse.map fun d => 48 + d) := by
  unfold strNat
  by_cases hn : n = 0
  · simp [hn]
  · simp [hn, toDecimalAux_eq_digits_reverse n n (Nat.le_refl n)]

theorem strNat_nonzero_ne (n : Nat) (hn : n ≠ 0) :
    ((Nat.digits 10 n).reverse.map fun d => 48 + d) ≠ [48] := by
  intro h
  have hlen := congrArg List.length h
  simp only [List.length_map, List.length_reverse, List.length_singleton] at hlen
  obtain ⟨a, ha⟩ := List.length_eq_one.mp hlen
  rw [ha] at h
  simp only [List.reverse_singleton, List.map_cons, List.map_nil, List.cons.injEq, and_true] at h
  have ha0 : a = 0 := by omega
  have hof := Nat.ofDigits_digits 10 n
  rw [ha, ha0] at hof
  simp [Nat.ofDigits] at hof
  exact hn hof.symm

theorem strNat_injective : Function.Injective strNat := by
  intro m n h
  rw [strNat_eq, strNat_eq] at h
  by_cases hm : m = 0 <;> by_cases hn : n = 0
  · omega
  · rw [if_pos hm, if_neg hn] at h
    exact absurd h.symm (strNat_nonzero_ne n hn)
  · rw [if_neg hm, if_pos hn] at h
    exact absurd h (strNat_nonzero_ne m hm)
  · rw [if_neg hm, if_neg hn] at h
    have hmap : Function.Injective (fun d : Nat => 48 + d) := fun a b hab => by
      have h48 : 48 + a = 48 + b := hab
      omega
    have h2 := List.map_injective_iff.mpr hmap h
    have h3 := List.reverse_injective h2
    exact Nat.digits_inj_iff.mp h3

theorem ack_target_injective (m n : Nat) (h : m ≠ n) :
    send_frame_ack m ≠ waiting_for_ack_target n := by
  intro heq
  unfold send_frame_ack waiting_for_ack_target at heq
  exact h (strNat_injective (List.append_cancel_left heq))

theorem receive_frame_req_le (fs i : Nat) (h : i < fs) : receive_frame_req fs i ≤ fs - i := by
  unfold receive_frame_req
  by_cases hr : fs - i < 1024 <;> simp [hr] <;> omega

theorem receive_frame_req_pos (fs i : Nat) (h : i < fs) : 1 ≤ receive_frame_req fs i := by
  unfold receive_frame_req
  by_cases hr : fs - i < 1024 <;> simp [hr] <;> omega

theorem receive_frame_step_facts (sched : Nat → Nat) (fs : Nat) (s : RecvState)
    (hlt : s.imgSize < fs) :
    s.imgSize ≤ (receive_frame_step sched fs s).imgSize ∧
    (receive_frame_step sched fs s).imgSize ≤ fs ∧
    (receive_frame_step sched fs s).imgSize + (receive_frame_step sched fs s).stream.length
      = s.imgSize + s.stream.length ∧
    (1 ≤ sched s.calls → 1 ≤ s.stream.length →
      s.imgSize + 1 ≤ (receive_frame_step sched fs s).imgSize) := by
  have hreq1 := receive_frame_req_le fs s.imgSize hlt
  have hreq2 := receive_frame_req_pos fs s.imgSize hlt
  unfold receive_frame_step
  dsimp only
  simp only [List.length_take, List.length_drop]
  omega

theorem receive_frame_step_written_length (sched : Nat → Nat) (fs : Nat) (s : RecvState) :
    (receive_frame_step sched fs s).written.length
      = s.written.length + ((receive_frame_step sched fs s).imgSize - s.imgSize) := by
  unfold receive_frame_step
  dsimp only
  simp only [List.length_append, List.length_take]
  omega

theorem take_append_drop_length (j : Nat) (l : List Nat) :
    l.take j ++ l.drop (l.take j).length = l := by
  rw [List.length_take]
  rcases Nat.le_total j l.length with h | h
  · rw [Nat.min_eq_left h, List.take_append_drop]
  · rw [Nat.min_eq_right h, List.drop_length, List.append_nil]
    exact List.take_of_length_le h

theorem receive_frame_step_content (sched : Nat → Nat) (fs : Nat) (s : RecvState) :
    (receive_frame_step sched fs s).written ++ (receive_frame_step sched fs s).stream
      = s.written ++ s.stream := by
  unfold receive_frame_step
  dsimp only
  rw [List.append_assoc]
  congr 1
  exact take_append_drop_length _ _

theorem receive_frame_loop_imgSize_le (sched : Nat → Nat) (fs : Nat) :
    ∀ (fuel : Nat) (s : RecvState), s.imgSize ≤ fs →
      (receive_frame_loop sched fs fuel s).imgSize ≤ fs
  | 0, _, h => h
  | fuel+1, s, h => by
    unfold receive_frame_loop
    by_cases hlt : s.imgSize < fs
    · rw [if_pos hlt]
      exact receive_frame_loop_imgSize_le sched fs fuel _
        (receive_frame_step_facts sched fs s hlt).2.1
    · rw [if_neg hlt]
      exact h

theorem receive_frame_loop_written_length (sched : Nat → Nat) (fs : Nat) :
    ∀ (fuel : Nat) (s : RecvState), s.written.length = s.imgSize →
      (receive_frame_loop sched fs fuel s).written.length
        = (receive_frame_loop sched fs fuel s).imgSize
  | 0, _, h => h
  | fuel+1, s, h => by
    unfold receive_frame_loop
    by_cases hlt : s.imgSize < fs
    · rw [if_pos hlt]
      apply receive_frame_loop_written_length sched fs fuel
      have h1 := receive_frame_step_written_length sched fs s
      have h2 := (receive_frame_step_facts sched fs s hlt).1
      omega
    · rw [if_neg hlt]
      exact h

theorem receive_frame_loop_content (sched : Nat → Nat) (fs : Nat) :
    ∀ (fuel : Nat) (s : RecvState),
      (receive_frame_loop sched fs fuel s).written ++ (receive_frame_loop sched fs fuel s).stream
        = s.written ++ s.stream
  | 0, _ => rfl
  | fuel+1, s => by
    unfold receive_frame_loop
    by_cases hlt : s.imgSize < fs
    · rw [if_pos hlt]
      rw [receive_frame_loop_content sched fs fuel (receive_frame_step sched fs s)]
      exact receive_frame_step_content sched fs s
    · rw [if_neg hlt]

theorem receive_frame_loop_terminates (sched : Nat → Nat) (fs : Nat)
    (hs : ∀ i, 1 ≤ sched i) :
    ∀ (fuel : Nat) (s : RecvState), s.imgSize ≤ fs →
      fs ≤ s.imgSize + s.stream.length → fs ≤ s.imgSize + fuel →
      (receive_frame_loop sched fs fuel s).imgSize = fs
  | 0, s, h1, _, h3 => by
    unfold receive_frame_loop
    omega
  | fuel+1, s, h1, h2, h3 => by
    unfold receive_frame_loop
    by_cases hlt : s.imgSize < fs
    · rw [if_pos hlt]
      have hf := receive_frame_step_facts sched fs s hlt
      have hprog := hf.2.2.2 (hs s.calls) (by omega)
      exact receive_frame_loop_terminates sched fs hs fuel _ hf.2.1 (by omega) (by omega)
    · rw [if_neg hlt]
      omega

theorem waiting_for_ack_loop_sound (f : Nat → List Nat) (t : List Nat) :
    ∀ (fuel i k : Nat), waiting_for_ack_loop f t fuel i = some k →
      f k = t ∧ i ≤ k ∧ ∀ j, i ≤ j → j < k → f j ≠ t
  | 0, i, k, h => by simp [waiting_for_ack_loop] at h
  | fuel+1, i, k, h => by
    unfold waiting_for_ack_loop at h
    by_cases hf : f i = t
    · rw [if_pos hf] at h
      have hik : i = k := by
        injection h
      subst hik
      exact ⟨hf, Nat.le_refl i, fun j h1 h2 => by omega⟩
    · rw [if_neg hf] at h
      have hrec := waiting_for_ack_loop_sound f t fuel (i+1) k h
      refine ⟨hrec.1, by omega, ?_⟩
      intro j h1 h2
      by_cases hji : j = i
      · subst hji
        exact hf
      · exact hrec.2.2 j (by omega) h2

theorem waiting_for_ack_loop_complete (f : Nat → List Nat) (t : List Nat) :
    ∀ (fuel i k : Nat), i ≤ k → k < i + fuel → f k = t →
      (∀ j, i ≤ j → j < k → f j ≠ t) →
      waiting_for_ack_loop f t fuel i = some k
  | 0, _, _, h1, h2, _, _ => by omega
  | fuel+1, i, k, h1, h2, hk, hmin => by
    unfold waiting_for_ack_loop
    by_cases hik : i = k
    · subst hik
      rw [if_pos hk]
    · have hne : f i ≠ t := hmin i (Nat.le_refl i) (by omega)
      rw [if_neg hne]
      exact waiting_for_ack_loop_complete f t fuel (i+1) k (by omega) (by omega) hk
        (fun j hj hjk => hmin j (by omega) hjk)

theorem waiting_for_ack_loop_none (f : Nat → List Nat) (t : List Nat) :
    ∀ (fuel i : Nat), (∀ j, i ≤ j → f j ≠ t) →
      waiting_for_ack_loop f t fuel i = none
  | 0, _, _ => rfl
  | fuel+1, i, h => by
    unfold waiting_for_ack_loop
    rw [if_neg (h i (Nat.le_refl i))]
    exact waiting_for_ack_loop_none f t fuel (i+1) (fun j hj => h j (by omega))

/-- Claim C1: for every byte body held in a source file, streaming it with the
chunked body loop of send_frame and feeding the resulting byte stream to the
read loop of receive_frame with expected size equal to the length of the body
stores an artifact byte-identical to the body, in the same order and of the
same total length, for every delivery schedule in which each blocking recv
yields at least one byte. -/
theorem send_receive_roundtrip (B : List Nat) (sched : Nat → Nat) (hs : ∀ i, 1 ≤ sched i) :
    (receive_frame sched B.length (sentBytes (send_frame B 1)).flatten B.length).written = B := by
  have hjoin : (sentBytes (send_frame B 1)).flatten = B := by
    rw [sentBytes_send_frame, sendFrameBody_flatten]
  rw [hjoin]
  unfold receive_frame
  have hterm := receive_frame_loop_terminates sched B.length hs B.length ⟨[], B, 0, 0⟩
    (Nat.zero_le _) (by dsimp; omega) (by dsimp; omega)
  have hwl := receive_frame_loop_written_length sched B.length B.length ⟨[], B, 0, 0⟩ rfl
  have hcontent := receive_frame_loop_content sched B.length B.length ⟨[], B, 0, 0⟩
  rw [List.nil_append] at hcontent
  have hlen : (receive_frame_loop sched B.length B.length ⟨[], B, 0, 0⟩).written.length
      = B.length := by
    rw [hwl, hterm]
  have hc2 : (receive_frame_loop sched B.length B.length ⟨[], B, 0, 0⟩).written
      ++ (receive_frame_loop sched B.length B.length ⟨[], B, 0, 0⟩).stream = B ++ [] := by
    rw [List.append_nil]
    exact hcontent
  exact (List.append_inj hc2 hlen).1

theorem send_receive_roundtrip_witness :
    (receive_frame schedFull 3 (sentBytes (send_frame [255, 10, 7] 1)).flatten 3).written
      = [255, 10, 7] := by
  exact send_receive_roundtrip [255, 10, 7] schedFull (fun i => by show (1 : Nat) ≤ 1024; decide)

/-- Claim C2: for every non-negative expected size, when the read loop of
receive_frame reaches its natural exit the number of bytes written to the
artifact equals the expected size exactly; each iteration requests at most
1024 bytes (exactly the remainder when it is below 1024) and the loop stops
precisely when the running count reaches the expected size. The loop exits
within expected-size many iterations whenever each blocking recv yields at
least one byte and the stream holds at least the announced count. -/
theorem receive_frame_exact_size (frame_size : Nat) (stream : List Nat) (sched : Nat → Nat)
    (hs : ∀ i, 1 ≤ sched i) (hlen : frame_size ≤ stream.length) :
    (receive_frame sched frame_size stream frame_size).imgSize = frame_size ∧
    (receive_frame sched frame_size stream frame_size).written.length = frame_size := by
  unfold receive_frame
  have hterm := receive_frame_loop_terminates sched frame_size hs frame_size ⟨[], stream, 0, 0⟩
    (Nat.zero_le _) (by dsimp; omega) (by dsimp; omega)
  have hwl := receive_frame_loop_written_length sched frame_size frame_size
    ⟨[], stream, 0, 0⟩ rfl
  exact ⟨hterm, by rw [hwl, hterm]⟩

theorem receive_frame_exact_size_witness :
    (receive_frame schedFull 3 [1, 2, 3, 4] 3).imgSize = 3 ∧
    (receive_frame schedFull 3 [1, 2, 3, 4] 3).written.length = 3 := by
  exact receive_frame_exact_size 3 [1, 2, 3, 4] schedFull (fun i => by show (1 : Nat) ≤ 1024; decide)
    (by decide)

/-- Claim C10: at every iteration of the read loop of receive_frame (that is,
after any number of iterations, for any delivery schedule and any incoming
stream, including streams longer than the announced size) the running byte
count and the number of bytes written to the artifact never exceed the
announced frame size: each receive requests at most the remaining count and a
receive never yields more bytes than requested, so the loop cannot overshoot. -/
theorem receive_frame_never_overshoots (sched : Nat → Nat) (frame_size fuel : Nat)
    (stream : List Nat) :
    (receive_frame sched frame_size stream fuel).imgSize ≤ frame_size ∧
    (receive_frame sched frame_size stream fuel).written.length ≤ frame_size := by
  unfold receive_frame
  have h1 := receive_frame_loop_imgSize_le sched frame_size fuel ⟨[], stream, 0, 0⟩
    (Nat.zero_le _)
  have h2 := receive_frame_loop_written_length sched frame_size fuel ⟨[], stream, 0, 0⟩ rfl
  exact ⟨h1, by omega⟩

/-- Claim C4: waiting_for_ack returns only after reading a message exactly
equal to 'OK FRAME ' followed by the decimal frame number: whenever it
returns, the accepted message is that exact text and every earlier message was
silently discarded as a non-match; conversely it does return once the exact
match arrives; and on a stream that never delivers the exact match it never
returns (the cut-off loop yields none for every fuel, with no timeout). -/
theorem waiting_for_ack_spec (frame : Nat) (f : Nat → List Nat) :
    (∀ fuel k, waiting_for_ack fuel f frame = some k →
        f k = waiting_for_ack_target frame ∧
          ∀ j, j < k → f j ≠ waiting_for_ack_target frame) ∧
    (∀ k, f k = waiting_for_ack_target frame →
        (∀ j, j < k → f j ≠ waiting_for_ack_target frame) →
        ∀ fuel, k < fuel → waiting_for_ack fuel f frame = some k) ∧
    ((∀ i, f i ≠ waiting_for_ack_target frame) →
        ∀ fuel, waiting_for_ack fuel f frame = none) := by
  refine ⟨?_, ?_, ?_⟩
  · intro fuel k h
    have hrec := waiting_for_ack_loop_sound f (waiting_for_ack_target frame) fuel 0 k h
    exact ⟨hrec.1, fun j hj => hrec.2.2 j (Nat.zero_le j) hj⟩
  · intro k hk hmin fuel hfuel
    exact waiting_for_ack_loop_complete f (waiting_for_ack_target frame) fuel 0 k
      (Nat.zero_le k) (by omega) hk (fun j _ hjk => hmin j hjk)
  · intro hnone fuel
    exact waiting_for_ack_loop_none f (waiting_for_ack_target frame) fuel 0
      (fun j _ => hnone j)

theorem waiting_for_ack_spec_witness : waiting_for_ack 5 ackStreamEx 0 = some 1 := by
  exact (waiting_for_ack_spec 0 ackStreamEx).2.1 1 (by decide)
    (fun j hj => by
      have hj0 : j = 0 := by omega
      subst hj0
      decide) 5 (by decide)

/-- Claim C5: for every frame number n, send_frame_ack emits exactly the ASCII
text 'OK FRAME n', which is exactly the message waiting_for_ack accepts for
frame n: a stream consisting of that acknowledgment unblocks a wait on frame n
at the first read, while for any other frame number m the wait on frame n
never accepts the acknowledgment for m, for any fuel. -/
theorem ack_roundtrip (n m : Nat) :
    send_frame_ack n = waiting_for_ack_target n ∧
    (∀ fuel, 1 ≤ fuel → waiting_for_ack fuel (fun _ => send_frame_ack n) n = some 0) ∧
    (m ≠ n → ∀ fuel, waiting_for_ack fuel (fun _ => send_frame_ack m) n = none) := by
  refine ⟨rfl, ?_, ?_⟩
  · intro fuel hfuel
    exact waiting_for_ack_loop_complete (fun _ => send_frame_ack n)
      (waiting_for_ack_target n) fuel 0 0 (Nat.le_refl 0) (by omega) rfl
      (fun j h1 h2 => by omega)
  · intro hmn fuel
    exact waiting_for_ack_loop_none (fun _ => send_frame_ack m)
      (waiting_for_ack_target n) fuel 0 (fun j _ => ack_target_injective m n hmn)

theorem ack_roundtrip_witness :
    waiting_for_ack 1 (fun _ => send_frame_ack 7) 7 = some 0 := by
  exact (ack_roundtrip 7 0).2.1 1 (by decide)

/-- Claim C6: for every frame file, the decimal integer carried by the size
control message produced by send_frame_size equals the exact total number of
body bytes that the streaming loop of send_frame subsequently transmits for
the same file contents. -/
theorem send_frame_size_matches_body (B : List Nat) (s : Nat) :
    send_frame_size B = strNat (sentBytes (send_frame B s)).flatten.length := by
  rw [sentBytes_send_frame, sendFrameBody_flatten]
  rfl

/-- Claim C3 counterexample: at the one-byte body 65, the trace of send_frame
contains exactly one send, carrying the body byte itself; it contains no
socket read (so no acknowledgment wait), and its sent chunks are not the size
control message followed by the body. -/
theorem send_frame_counterexample :
    sentBytes (send_frame [65] 1) = [[65]] ∧
    SendEvent.recvCall ∉ send_frame [65] 1 ∧
    sentBytes (send_frame [65] 1) ≠ [send_frame_size [65], [65]] := by
  decide

/-- Claim C3 amended: a single call to send_frame performs the pacing sleep
and the body transfer only — its sent bytes concatenate to exactly the body —
and it neither sends the size control message nor performs any socket read
(so no acknowledgment wait); the size announcement and the acknowledgment
wait are the separate functions send_frame_size and waiting_for_ack, invoked
by the caller around send_frame. -/
theorem send_frame_body_only (B : List Nat) (s : Nat) :
    (send_frame B s).head? = some (SendEvent.sleep s) ∧
    (sentBytes (send_frame B s)).flatten = B ∧
    SendEvent.recvCall ∉ send_frame B s := by
  refine ⟨rfl, ?_, ?_⟩
  · rw [sentBytes_send_frame, sendFrameBody_flatten]
  · unfold send_frame
    simp [List.mem_cons, List.mem_map]

theorem send_frame_body_only_witness :
    (send_frame [65] 1).head? = some (SendEvent.sleep 1) ∧
    (sentBytes (send_frame [65] 1)).flatten = [65] ∧
    SendEvent.recvCall ∉ send_frame [65] 1 := by
  exact send_frame_body_only [65] 1

/-- Claim C7: when the announced size is 0, the read loop of receive_frame
makes no recv call and leaves the incoming stream untouched, terminating
immediately for any fuel; the (empty) output artifact is still created at its
deterministic name, and the Receiver driver still emits the acknowledgment
'OK FRAME n' for the frame. -/
theorem receive_frame_zero_size (sched : Nat → Nat) (save_loc : List Nat)
    (frame fuel : Nat) (stream : List Nat) :
    (receive_frame sched 0 stream fuel).calls = 0 ∧
    (receive_frame sched 0 stream fuel).stream = stream ∧
    receiver_frame_driver sched save_loc frame 0 stream fuel =
      [RecvEvent.createArtifact (receive_frame_filename save_loc frame),
       RecvEvent.wroteBody [],
       RecvEvent.sendMsg (okFrameBytes ++ strNat frame)] := by
  have hloop : receive_frame sched 0 stream fuel = ⟨[], stream, 0, 0⟩ := by
    unfold receive_frame
    cases fuel with
    | zero => rfl
    | succ fuel => simp [receive_frame_loop]
  refine ⟨by rw [hloop], by rw [hloop], ?_⟩
  unfold receiver_frame_driver
  rw [hloop]
  rfl

/-- Claim C8 counterexample: called with no address and any resolved local
host address (777 here) on port 5000, init_server_socket creates the socket,
resolves the local host name and binds — its trace contains no accept call,
so it does not accept an incoming connection before returning. -/
theorem init_server_socket_counterexample :
    SockOp.acceptConn ∉ init_server_socket none 777 5000 ∧
    init_server_socket none 777 5000
      = [SockOp.socketCreate, SockOp.gethostbyname, SockOp.bindTo 777 5000] := by
  decide

/-- Claim C8 amended: init_server_socket binds to the given address and port,
defaulting the bind address to the local host resolvable address when the
address is omitted, and returns the bound socket without accepting (or
listening for) any incoming connection; accepting is left to the caller. -/
theorem init_server_socket_spec (address : Option Nat) (hostAddr port : Nat) :
    SockOp.bindTo (address.getD hostAddr) port ∈ init_server_socket address hostAddr port ∧
    SockOp.acceptConn ∉ init_server_socket address hostAddr port := by
  cases address with
  | none => simp [init_server_socket, Option.getD]
  | some a => simp [init_server_socket, Option.getD]

theorem init_server_socket_spec_witness :
    SockOp.bindTo 9 5000 ∈ init_server_socket (some 9) 777 5000 ∧
    SockOp.acceptConn ∉ init_server_socket (some 9) 777 5000 := by
  exact init_server_socket_spec (some 9) 777 5000

/-- Claim C9: receive_bytes_to_string performs exactly one bounded read of at
most 1024 bytes (the rest of the stream is left unread), decodes it as text
and returns it with every newline character removed, so the returned text
never contains a newline. -/
theorem receive_bytes_to_string_spec (stream : List Nat) :
    (receive_bytes_read stream).length ≤ 1024 ∧
    receive_bytes_read stream ++ stream.drop 1024 = stream ∧
    (10 : Nat) ∉ receive_bytes_to_string stream ∧
    receive_bytes_to_string stream = (receive_bytes_read stream).filter (fun b => b != 10) := by
  refine ⟨?_, ?_, ?_, rfl⟩
  · simp only [receive_bytes_read, List.length_take]
    omega
  · exact List.take_append_drop 1024 stream
  · simp [receive_bytes_to_string, List.mem_filter]

theorem receive_bytes_to_string_spec_witness :
    (receive_bytes_read [79, 10, 75]).length ≤ 1024 ∧
    receive_bytes_read [79, 10, 75] ++ List.drop 1024 [79, 10, 75] = [79, 10, 75] ∧
    (10 : Nat) ∉ receive_bytes_to_string [79, 10, 75] ∧
    receive_bytes_to_string [79, 10, 75]
      = (receive_bytes_read [79, 10, 75]).filter (fun b => b != 10) := by
  exact receive_bytes_to_string_spec [79, 10, 75]
